import Mathlib

/-!
Verification development for the darm ARMv7 disassembler core (src/armv7.c).

The file shallowly embeds the decode engine: the condition registry
(`g_condition_codes`, `armv7_condition_info`, `armv7_condition_index`), the
shifter-operand decoder (`armv7_shift_decode`), and the per-encoding-class
field extractor (`armv7_disas_cond`) together with the top-level entry point
(`armv7_disassemble`).  Machine integers are modelled as `Nat` with an
explicit `% 2 ^ 32` where 32-bit overflow matters; the out-parameter record
`darm_t` is threaded explicitly, and C return codes are kept as `Int`.

The instruction-identity and encoding-class lookup tables live in the
generated header `armv7-tbl.h`, which the spec treats as externally supplied
authored data; they are modelled as parameters (`armv7_tables`) of the decode
functions, so theorems quantify over every possible table content.
-/

/-- Instruction identities (`armv7_instr_t` of armv7-tbl.h).  Only the
identities that `armv7.c` mentions by name are distinguished; every other
identity of the generated enumeration is represented by `I_OTHER n`. -/
inductive armv7_instr_t where
  | I_INVLD
  | I_ADD
  | I_SUB
  | I_ADR
  | I_SVC
  | I_B
  | I_BL
  | I_BKPT
  | I_BX
  | I_BXJ
  | I_BLX
  | I_MSR
  | I_QSUB
  | I_SMLAW
  | I_SMULW
  | I_MOV
  | I_MVN
  | I_MOVW
  | I_MOVT
  | I_LSL
  | I_LSR
  | I_ASR
  | I_ROR
  | I_RRX
  | I_NOP
  | I_OTHER (n : Nat)
deriving DecidableEq

/-- Encoding classes (`armv7_enctype_t` of armv7-tbl.h).  The classes that
the switch in `armv7_disas_cond` handles are distinguished; any other value
of the enumeration is represented by `T_OTHER n` and falls through to the
failure return, exactly as an unhandled case of the C switch does. -/
inductive armv7_enctype_t where
  | T_INVLD
  | T_ARITH_SHIFT
  | T_ARITH_IMM
  | T_BRNCHSC
  | T_BRNCHMISC
  | T_MOV_IMM
  | T_CMP_OP
  | T_CMP_IMM
  | T_OPLESS
  | T_DST_SRC
  | T_OTHER (n : Nat)
deriving DecidableEq

/-- The decoded-instruction record `darm_t` (darm.h), restricted to the
members that `armv7.c` reads or writes.  All numeric members are unsigned
machine integers in C and are modelled as `Nat`. -/
structure darm_t where
  w : Nat
  instr : armv7_instr_t
  instr_type : armv7_enctype_t
  cond : Nat
  S : Nat
  Rd : Nat
  Rn : Nat
  Rm : Nat
  Rs : Nat
  type : Nat
  shift_is_reg : Nat
  shift : Nat
  imm : Nat
  add : Nat
deriving DecidableEq

/-- Modelled from the spec: `memset(d, 0, sizeof(darm_t))` clears the record
to its all-zero default; the zero values of the two enumerations are the
invalid markers `I_INVLD` and `T_INVLD` (they are the first enumerators of
the generated tables header, which is not under src/). -/
def darm_zero : darm_t :=
  { w := 0, instr := .I_INVLD, instr_type := .T_INVLD, cond := 0, S := 0,
    Rd := 0, Rn := 0, Rm := 0, Rs := 0, type := 0, shift_is_reg := 0,
    shift := 0, imm := 0, add := 0 }

/-- Modelled from the spec: the program-counter register index `PC` of the
register enumeration in darm.h (not under src/), ARM register r15. -/
def PC : Nat := 15

/-- `BITMSK_12` of armv7.c. -/
def BITMSK_12 : Nat := (1 <<< 12) - 1

/-- `BITMSK_24` of armv7.c. -/
def BITMSK_24 : Nat := (1 <<< 24) - 1

/-- The condition-code table `g_condition_codes` of armv7.c: for each entry
its `mnemonic_extension`, `meaning_integer` and `meaning_fp` strings, in
source order (indices 0-14 are the condition-field values; 15 and 16 are the
trailing `HS`/`LO` alias entries). -/
def g_condition_codes : List (String × String × String) :=
  [("EQ", "Equal", "Equal"),
   ("NE", "Not equal", "Not equal, or unordered"),
   ("CS", "Carry Set", "Greater than, equal, or unordered"),
   ("CC", "Carry Clear", "Less than"),
   ("MI", "Minus, negative", "Less than"),
   ("PL", "Plus, positive or zero", "Greater than, equal, or unordered"),
   ("VS", "Overflow", "Unordered"),
   ("VC", "No overflow", "Not unordered"),
   ("HI", "Unsigned higher", "Greater than, unordered"),
   ("LS", "Unsigned lower or same", "Greater than, or unordered"),
   ("GE", "Signed greater than or equal", "Greater than, or unordered"),
   ("LT", "Signed less than", "Less than, or unordered"),
   ("GT", "Signed greater than", "Greater than"),
   ("LE", "Signed less than or equal", "Less than, equal, or unordered"),
   ("AL", "Always (unconditional)", "Always (unconditional)"),
   ("HS", "Carry Set", "Greater than, equal, or unordered"),
   ("LO", "Carry Clear", "Less than")]

/-- `armv7_condition_info` of armv7.c.  The C function writes the two
meaning strings through out-pointers and returns the mnemonic extension (or
NULL for a condition flag outside [0, 14]); the triple of outputs is
returned jointly, `none` standing for the NULL return. -/
def armv7_condition_info (condition_flag : Int)
    (omit_always_mnemonic : Int) : Option (String × String × String) :=
  if condition_flag < 0 ∨ condition_flag > 14 then none
  else
    match g_condition_codes.get? condition_flag.toNat with
    | none => none
    | some e =>
      if omit_always_mnemonic ≠ 0 ∧ condition_flag = 14 then
        some ("", e.2.1, e.2.2)
      else
        some (e.1, e.2.1, e.2.2)

/-- `armv7_condition_index` of armv7.c (for a non-NULL argument): the empty
string returns `0b1110`; otherwise the first table entry whose
`mnemonic_extension` compares equal returns its index, and no match
returns -1. -/
def armv7_condition_index (condition_code : String) : Int :=
  if condition_code = "" then 14
  else
    match g_condition_codes.findIdx? (fun e => e.1 = condition_code) with
    | some i => (i : Int)
    | none => -1

/-- The `shift_types` string table of armv7.c. -/
def shift_types : List String := ["LSL", "LSR", "ASR", "ROR"]

/-- `armv7_shift_decode` of armv7.c: from the record's `type` and `Rs`
members it resolves the shift-mode label (`none` standing for the NULL label
of the no-shift case) and the effective amount, both written through
out-pointers in C and returned jointly here.  The indexing
`shift_types[d->type]` is modelled by `List.get?`, so an out-of-range
`type` member yields `none` for the whole result. -/
def armv7_shift_decode (d : darm_t) : Option (Option String × Nat) :=
  if d.type = 0 ∧ d.Rs = 0 then
    some (none, 0)
  else if d.type = 3 ∧ d.Rs = 0 then
    some (some "RRX", 0)
  else
    match shift_types.get? d.type with
    | none => none
    | some lbl =>
      let immediate := d.Rs
      let immediate :=
        if (d.type = 1 ∨ d.type = 2) ∧ d.Rs = 0 then 32 else immediate
      some (some lbl, immediate)

/-- Modelled from the spec: the externally supplied lookup tables of the
generated header armv7-tbl.h (not under src/) — the primary
instruction-identity and encoding-class tables indexed by bits 27-20, and
the three secondary sub-tables.  They are authored static data, so the
decode functions take them as a parameter and the theorems hold for every
table content. -/
structure armv7_tables where
  armv7_instr_labels : Nat → armv7_instr_t
  armv7_instr_types : Nat → armv7_enctype_t
  type4_instr_lookup : Nat → armv7_instr_t
  type_opless_instr_lookup : Nat → armv7_instr_t
  type_shift_instr_lookup : Nat → armv7_instr_t

/-- `armv7_disas_cond` of armv7.c: the per-encoding-class field extractor.
Returns the C return code together with the final state of the record
out-parameter. -/
def armv7_disas_cond (tbl : armv7_tables) (d0 : darm_t) (w : Nat) :
    Int × darm_t :=
  let d := { d0 with
             instr := tbl.armv7_instr_labels ((w >>> 20) &&& 0xff),
             instr_type := tbl.armv7_instr_types ((w >>> 20) &&& 0xff) }
  match d.instr_type with
  | .T_INVLD => (-1, d)
  | .T_ARITH_SHIFT =>
    let d := { d with
               S := (w >>> 20) &&& 1,
               Rd := (w >>> 12) &&& 0b1111,
               Rn := (w >>> 16) &&& 0b1111,
               Rm := w &&& 0b1111,
               type := (w >>> 5) &&& 0b11,
               shift_is_reg := (w >>> 4) &&& 1 }
    let d :=
      if d.shift_is_reg ≠ 0 then { d with Rs := (w >>> 8) &&& 0b1111 }
      else { d with shift := (w >>> 7) &&& 0b11111 }
    (0, d)
  | .T_ARITH_IMM =>
    let d := { d with
               S := (w >>> 20) &&& 1,
               Rd := (w >>> 12) &&& 0b1111,
               Rn := (w >>> 16) &&& 0b1111,
               imm := w &&& BITMSK_12 }
    let d :=
      if (d.instr = .I_ADD ∨ d.instr = .I_SUB) ∧ d.S = 0 ∧ d.Rn = PC then
        { d with instr := .I_ADR, Rn := 0, add := (w >>> 23) &&& 1 }
      else d
    (0, d)
  | .T_BRNCHSC =>
    let d := { d with imm := w &&& BITMSK_24 }
    let d :=
      if d.instr ≠ .I_SVC then
        if (d.imm >>> 23) &&& 1 = 1 then
          { d with imm := ((d.imm ||| 0xff000000) <<< 2) % 2 ^ 32 }
        else
          { d with imm := (d.imm <<< 2) % 2 ^ 32 }
      else d
    (0, d)
  | .T_BRNCHMISC =>
    let d := { d with instr := tbl.type4_instr_lookup ((w >>> 4) &&& 0b1111) }
    match d.instr with
    | .I_BKPT =>
      (0, { d with imm := (((w >>> 8) &&& BITMSK_12) <<< 4) + (w &&& 0b1111) })
    | .I_BX => (0, { d with Rm := w &&& 0b1111 })
    | .I_BXJ => (0, { d with Rm := w &&& 0b1111 })
    | .I_BLX => (0, { d with Rm := w &&& 0b1111 })
    | .I_MSR => (0, { d with Rn := w &&& 0b1111, imm := (w >>> 18) &&& 0b11 })
    | _ => (-1, d)
  | .T_MOV_IMM =>
    let d := { d with Rd := (w >>> 12) &&& 0b1111, imm := w &&& BITMSK_12 }
    let d :=
      if d.instr = .I_MOV ∨ d.instr = .I_MVN then
        { d with S := (w >>> 20) &&& 1 }
      else
        { d with imm := d.imm ||| (((w >>> 16) &&& 0b1111) <<< 12) }
    (0, d)
  | .T_CMP_OP =>
    let d := { d with
               Rn := (w >>> 16) &&& 0b1111,
               Rm := w &&& 0b1111,
               type := (w >>> 5) &&& 0b11,
               shift_is_reg := (w >>> 4) &&& 1 }
    let d :=
      if d.shift_is_reg ≠ 0 then { d with Rs := (w >>> 8) &&& 0b1111 }
      else { d with shift := (w >>> 7) &&& 0b11111 }
    (0, d)
  | .T_CMP_IMM =>
    (0, { d with Rn := (w >>> 16) &&& 0b1111, imm := w &&& BITMSK_12 })
  | .T_OPLESS =>
    let d := { d with instr := tbl.type_opless_instr_lookup (w &&& 0b111) }
    (if d.instr = .I_INVLD then -1 else 0, d)
  | .T_DST_SRC =>
    let d := { d with instr := tbl.type_shift_instr_lookup ((w >>> 4) &&& 0b1111) }
    if d.instr ≠ .I_INVLD then
      let d := { d with
                 S := (w >>> 20) &&& 1,
                 Rd := (w >>> 12) &&& 0b1111,
                 type := (w >>> 5) &&& 0b11 }
      if (w >>> 4) &&& 1 ≠ 0 then
        (0, { d with Rm := (w >>> 8) &&& 0b1111, Rn := w &&& 0b1111 })
      else
        let d := { d with Rm := w &&& 0b1111, shift := (w >>> 7) &&& 0b11111 }
        let d :=
          if d.instr = .I_LSL ∧ d.type = 0 ∧ d.shift = 0 then
            { d with instr := if d.Rd = d.Rm then .I_NOP else .I_MOV }
          else if d.instr = .I_ROR ∧ d.type = 3 ∧ d.shift = 0 then
            { d with instr := .I_RRX }
          else d
        (0, d)
    else
      (-1, d)
  | .T_OTHER _ => (-1, d)

/-- `armv7_disassemble` of armv7.c: clears the caller's record (`memset`),
stores the condition field and the raw word, dispatches to
`armv7_disas_cond` unless the condition field is `0b1111`, and returns the
C return code together with the final state of the record out-parameter.
The prior contents `d0` of the caller's record are erased by the memset. -/
def armv7_disassemble (tbl : armv7_tables) (d0 : darm_t) (w : Nat) :
    Int × darm_t :=
  let d := { darm_zero with cond := (w >>> 28) &&& 0b1111, w := w }
  let r := if d.cond = 0b1111 then (-1, d) else armv7_disas_cond tbl d w
  if r.1 < 0 then r else (0, r.2)

/-- C1: evaluation of the reverse condition lookup.  The empty string maps
to 14 and unknown text to -1 as documented, but the alias entries do not map
to the field values of their canonical entries: "HS" returns its raw table
index 15 (while "CS" returns 2) and "LO" returns 16 (while "CC" returns 3),
because the loop in `armv7_condition_index` returns the array index of the
matching entry and the aliases sit at the tail of the table. -/
theorem armv7_condition_index_alias_divergence :
    armv7_condition_index "" = 14 ∧
    armv7_condition_index "XY" = -1 ∧
    armv7_condition_index "HS" = 15 ∧
    armv7_condition_index "CS" = 2 ∧
    armv7_condition_index "LO" = 16 ∧
    armv7_condition_index "CC" = 3 ∧
    armv7_condition_index "HS" ≠ armv7_condition_index "CS" ∧
    armv7_condition_index "LO" ≠ armv7_condition_index "CC" := by
  refine ⟨?_, ?_, ?_, ?_, ?_, ?_, ?_, ?_⟩ <;> decide

/-- C7: case analysis of the shifter-operand decoder: type 0 with `Rs` 0
yields no shift; type 3 with `Rs` 0 yields the "RRX" alias with amount 0;
types 1 and 2 with an encoded zero amount yield their literal labels with
amount 32; any other case yields the literal table label and the literal
amount; and the decoder succeeds for every 2-bit type value. -/
theorem armv7_shift_decode_cases (d : darm_t) (h : d.type < 4) :
    (armv7_shift_decode d).isSome = true ∧
    (d.type = 0 ∧ d.Rs = 0 → armv7_shift_decode d = some (none, 0)) ∧
    (d.type = 3 ∧ d.Rs = 0 → armv7_shift_decode d = some (some "RRX", 0)) ∧
    (d.type = 1 ∧ d.Rs = 0 → armv7_shift_decode d = some (some "LSR", 32)) ∧
    (d.type = 2 ∧ d.Rs = 0 → armv7_shift_decode d = some (some "ASR", 32)) ∧
    (d.Rs ≠ 0 → ∃ lbl, shift_types.get? d.type = some lbl ∧
        armv7_shift_decode d = some (some lbl, d.Rs)) := by
  have h4 : d.type = 0 ∨ d.type = 1 ∨ d.type = 2 ∨ d.type = 3 := by omega
  by_cases hr : d.Rs = 0 <;> rcases h4 with h0 | h0 | h0 | h0 <;>
    simp [armv7_shift_decode, h0, hr, shift_types]

/-- C7 witness: a concrete record with type 1 (logical right) and `Rs` 0
decodes to the "LSR" label with the corrected amount 32. -/
theorem armv7_shift_decode_cases_witness :
    ({ darm_zero with type := 1 } : darm_t).type < 4 ∧
    armv7_shift_decode { darm_zero with type := 1 } = some (some "LSR", 32) :=
  ⟨by decide,
   (armv7_shift_decode_cases { darm_zero with type := 1 } (by decide)).2.2.2.1
     ⟨rfl, rfl⟩⟩

/-- C10: the shifter-operand decoder reads only the `type` and `Rs` members
of the record: any two records agreeing on those two members produce the
same label and amount, whatever their immediate shift-amount member,
`shift_is_reg` flag, or any other member holds. -/
theorem armv7_shift_decode_depends_only_on_type_Rs (d1 d2 : darm_t)
    (ht : d1.type = d2.type) (hr : d1.Rs = d2.Rs) :
    armv7_shift_decode d1 = armv7_shift_decode d2 := by
  simp only [armv7_shift_decode, ht, hr]

/-- C10 witness: two records agreeing on `type` and `Rs` but with different
immediate shift-amount and immediate members decode identically. -/
theorem armv7_shift_decode_depends_only_on_type_Rs_witness :
    armv7_shift_decode
        { darm_zero with type := 2, Rs := 5, shift := 31, imm := 99 } =
      armv7_shift_decode { darm_zero with type := 2, Rs := 5 } :=
  armv7_shift_decode_depends_only_on_type_Rs _ _ rfl rfl

/-- C8: for every condition field value in [0, 14] the lookup succeeds with
non-empty integer and floating-point meanings; for field 14 the omit-always
variant returns the empty mnemonic suffix while the non-omit variant
returns "AL"; for every field value outside [0, 14] it returns NULL. -/
theorem armv7_condition_info_spec (flag omit_flag : Int) :
    (0 ≤ flag → flag ≤ 14 →
      ∃ s mi mf, armv7_condition_info flag omit_flag = some (s, mi, mf) ∧
        mi ≠ "" ∧ mf ≠ "") ∧
    (omit_flag ≠ 0 → armv7_condition_info 14 omit_flag =
      some ("", "Always (unconditional)", "Always (unconditional)")) ∧
    (armv7_condition_info 14 0 =
      some ("AL", "Always (unconditional)", "Always (unconditional)")) ∧
    (flag < 0 ∨ 14 < flag → armv7_condition_info flag omit_flag = none) := by
  refine ⟨?_, ?_, by decide, ?_⟩
  · intro h0 h14
    interval_cases flag <;> by_cases ho : omit_flag = 0 <;>
      simp [armv7_condition_info, g_condition_codes, ho] <;>
      exact ⟨_, _, _, ⟨rfl, rfl, rfl⟩, by decide, by decide⟩
  · intro ho
    simp [armv7_condition_info, g_condition_codes, ho]
  · intro h
    unfold armv7_condition_info
    rw [if_pos h]

/-- C8 witness: the lookup succeeds at field value 3 with non-empty
meanings. -/
theorem armv7_condition_info_spec_witness :
    (0 : Int) ≤ 3 ∧ (3 : Int) ≤ 14 ∧
    ∃ s mi mf, armv7_condition_info 3 0 = some (s, mi, mf) ∧
      mi ≠ "" ∧ mf ≠ "" :=
  ⟨by decide, by decide,
   (armv7_condition_info_spec 3 0).1 (by decide) (by decide)⟩

/-- A sample table assignment with every lookup invalid, used to evaluate
the decoder on concrete words whose path does not depend on table
content. -/
def tbl0 : armv7_tables :=
  { armv7_instr_labels := fun _ => .I_INVLD,
    armv7_instr_types := fun _ => .T_INVLD,
    type4_instr_lookup := fun _ => .I_INVLD,
    type_opless_instr_lookup := fun _ => .I_INVLD,
    type_shift_instr_lookup := fun _ => .I_INVLD }

/-- The field extractor never touches the `cond` and `w` members: they keep
whatever the orchestrator stored before dispatch. -/
theorem armv7_disas_cond_keeps_cond_w (tbl : armv7_tables) (d : darm_t)
    (w : Nat) :
    (armv7_disas_cond tbl d w).2.cond = d.cond ∧
    (armv7_disas_cond tbl d w).2.w = d.w := by
  rcases ht : tbl.armv7_instr_types ((w >>> 20) &&& 0xff) <;>
    simp [armv7_disas_cond, ht] <;>
    try split_ifs <;> simp
  all_goals
    rcases hi : tbl.type4_instr_lookup ((w >>> 4) &&& 0b1111) <;> simp [hi]

/-- On every failing path of the field extractor the record differs from
the dispatched record only in the `instr` and `instr_type` members: every
operand member keeps the value it was dispatched with. -/
theorem armv7_disas_cond_fail_frame (tbl : armv7_tables) (d : darm_t)
    (w : Nat) (h : (armv7_disas_cond tbl d w).1 < 0) :
    (armv7_disas_cond tbl d w).2.S = d.S ∧
    (armv7_disas_cond tbl d w).2.Rd = d.Rd ∧
    (armv7_disas_cond tbl d w).2.Rn = d.Rn ∧
    (armv7_disas_cond tbl d w).2.Rm = d.Rm ∧
    (armv7_disas_cond tbl d w).2.Rs = d.Rs ∧
    (armv7_disas_cond tbl d w).2.type = d.type ∧
    (armv7_disas_cond tbl d w).2.shift_is_reg = d.shift_is_reg ∧
    (armv7_disas_cond tbl d w).2.shift = d.shift ∧
    (armv7_disas_cond tbl d w).2.imm = d.imm ∧
    (armv7_disas_cond tbl d w).2.add = d.add := by
  rcases ht : tbl.armv7_instr_types ((w >>> 20) &&& 0xff) <;>
    simp [armv7_disas_cond, ht] at h ⊢
  all_goals try (split_ifs at h ⊢ <;> simp_all)
  all_goals
    rcases hi : tbl.type4_instr_lookup ((w >>> 4) &&& 0b1111) <;>
      simp [hi] at h ⊢

/-- Unfolding step for the return code of the orchestrator. -/
theorem armv7_disassemble_fst (tbl : armv7_tables) (d0 : darm_t) (w : Nat) :
    (armv7_disassemble tbl d0 w).1 =
      if (w >>> 28) &&& 0b1111 = 0b1111 then -1
      else if (armv7_disas_cond tbl
          { darm_zero with cond := (w >>> 28) &&& 0b1111, w := w } w).1 < 0
        then (armv7_disas_cond tbl
          { darm_zero with cond := (w >>> 28) &&& 0b1111, w := w } w).1
        else 0 := by
  by_cases hc : (w >>> 28) &&& 0b1111 = 0b1111 <;>
    simp [armv7_disassemble, hc] <;> split_ifs <;> first | rfl | omega

/-- Unfolding step for the record out-parameter of the orchestrator. -/
theorem armv7_disassemble_snd (tbl : armv7_tables) (d0 : darm_t) (w : Nat) :
    (armv7_disassemble tbl d0 w).2 =
      if (w >>> 28) &&& 0b1111 = 0b1111 then
        { darm_zero with cond := (w >>> 28) &&& 0b1111, w := w }
      else (armv7_disas_cond tbl
        { darm_zero with cond := (w >>> 28) &&& 0b1111, w := w } w).2 := by
  by_cases hc : (w >>> 28) &&& 0b1111 = 0b1111 <;>
    simp [armv7_disassemble, hc] <;> split_ifs <;> rfl

/-- C9: decoding is a pure function of the input word: the caller's prior
record contents are erased by the initial clear, so two calls on the same
word give bit-identical results whatever record state each starts from, and
in particular a decode following a prior decode of a different word equals
a fresh decode. -/
theorem armv7_disassemble_pure (tbl : armv7_tables) (d1 d2 : darm_t)
    (w w1 : Nat) :
    armv7_disassemble tbl d1 w = armv7_disassemble tbl d2 w ∧
    armv7_disassemble tbl (armv7_disassemble tbl d1 w1).2 w =
      armv7_disassemble tbl d2 w :=
  ⟨rfl, rfl⟩

/-- C6: a word whose condition field is 15 always fails to decode, and a
successful decode always carries a condition field in [0, 14]. -/
theorem armv7_disassemble_cond15_fails (tbl : armv7_tables) (d0 : darm_t)
    (w : Nat) :
    ((w >>> 28) &&& 0b1111 = 0b1111 → (armv7_disassemble tbl d0 w).1 = -1) ∧
    ((armv7_disassemble tbl d0 w).1 = 0 →
      (armv7_disassemble tbl d0 w).2.cond ≤ 14) := by
  constructor
  · intro hc
    simp [armv7_disassemble, hc]
  · intro hs
    by_cases hc : (w >>> 28) &&& 0b1111 = 0b1111
    · simp [armv7_disassemble, hc] at hs
    · have hk := (armv7_disas_cond_keeps_cond_w tbl
        { darm_zero with cond := (w >>> 28) &&& 0b1111, w := w } w).1
      have hle : (w >>> 28) &&& 0b1111 ≤ 0b1111 := Nat.and_le_right
      simp [armv7_disassemble, hc]
      split_ifs with hf
      · simp [hk]; omega
      · simp [hk]; omega

/-- C6 witness: the concrete word 0xF0000000 has condition field 15 and
fails to decode. -/
theorem armv7_disassemble_cond15_fails_witness :
    (0xF0000000 >>> 28) &&& 0b1111 = 0b1111 ∧
    (armv7_disassemble tbl0 darm_zero 0xF0000000).1 = -1 :=
  ⟨by decide,
   (armv7_disassemble_cond15_fails tbl0 darm_zero 0xF0000000).1 (by decide)⟩

/-- C2 counterexample: on the failing word 0xF0000000 the caller's record
is not left untouched: the failure signal -1 comes back together with a
record whose condition field (15) and raw word were written, so fields of
the record are observable on the failure path, contrary to the claim. -/
theorem armv7_disassemble_fail_exposes_fields :
    (armv7_disassemble tbl0 darm_zero 0xF0000000).1 = -1 ∧
    (armv7_disassemble tbl0 darm_zero 0xF0000000).2.cond = 15 ∧
    (armv7_disassemble tbl0 darm_zero 0xF0000000).2.w = 0xF0000000 ∧
    (armv7_disassemble tbl0 darm_zero 0xF0000000).2 ≠ darm_zero := by
  refine ⟨?_, ?_, ?_, ?_⟩ <;> decide

/-- C2 (amended): on every failing decode the caller observes the failure
signal and a record whose operand fields are all still zero: only the
condition field, the raw word, and the two table-driven identity tags are
ever written before a failure is signalled. -/
theorem armv7_disassemble_fail_no_operand_fields (tbl : armv7_tables)
    (d0 : darm_t) (w : Nat) (h : (armv7_disassemble tbl d0 w).1 < 0) :
    (armv7_disassemble tbl d0 w).2.S = 0 ∧
    (armv7_disassemble tbl d0 w).2.Rd = 0 ∧
    (armv7_disassemble tbl d0 w).2.Rn = 0 ∧
    (armv7_disassemble tbl d0 w).2.Rm = 0 ∧
    (armv7_disassemble tbl d0 w).2.Rs = 0 ∧
    (armv7_disassemble tbl d0 w).2.type = 0 ∧
    (armv7_disassemble tbl d0 w).2.shift_is_reg = 0 ∧
    (armv7_disassemble tbl d0 w).2.shift = 0 ∧
    (armv7_disassemble tbl d0 w).2.imm = 0 ∧
    (armv7_disassemble tbl d0 w).2.add = 0 ∧
    (armv7_disassemble tbl d0 w).2.cond = (w >>> 28) &&& 0b1111 ∧
    (armv7_disassemble tbl d0 w).2.w = w := by
  have hsnd := armv7_disassemble_snd tbl d0 w
  by_cases hc : (w >>> 28) &&& 0b1111 = 0b1111
  · rw [hsnd, if_pos hc]
    simp [darm_zero]
  · have hfail : (armv7_disas_cond tbl
        { darm_zero with cond := (w >>> 28) &&& 0b1111, w := w } w).1 < 0 := by
      rw [armv7_disassemble_fst tbl d0 w, if_neg hc] at h
      split_ifs at h with hf
      · exact hf
      · omega
    have hframe := armv7_disas_cond_fail_frame tbl
      { darm_zero with cond := (w >>> 28) &&& 0b1111, w := w } w hfail
    have hkeep := armv7_disas_cond_keeps_cond_w tbl
      { darm_zero with cond := (w >>> 28) &&& 0b1111, w := w } w
    rw [hsnd, if_neg hc]
    exact ⟨hframe.1, hframe.2.1, hframe.2.2.1, hframe.2.2.2.1,
      hframe.2.2.2.2.1, hframe.2.2.2.2.2.1, hframe.2.2.2.2.2.2.1,
      hframe.2.2.2.2.2.2.2.1, hframe.2.2.2.2.2.2.2.2.1,
      hframe.2.2.2.2.2.2.2.2.2, hkeep.1, hkeep.2⟩

/-- C2 witness: at the failing word 0xF0000000 all operand fields of the
returned record are zero and the condition field and raw word hold the
extracted values. -/
theorem armv7_disassemble_fail_no_operand_fields_witness :
    (armv7_disassemble tbl0 darm_zero 0xF0000000).1 < 0 ∧
    (armv7_disassemble tbl0 darm_zero 0xF0000000).2.imm = 0 ∧
    (armv7_disassemble tbl0 darm_zero 0xF0000000).2.cond =
      (0xF0000000 >>> 28) &&& 0b1111 :=
  ⟨by decide,
   (armv7_disassemble_fail_no_operand_fields tbl0 darm_zero 0xF0000000
     (by decide)).2.2.2.2.2.2.2.2.1,
   (armv7_disassemble_fail_no_operand_fields tbl0 darm_zero 0xF0000000
     (by decide)).2.2.2.2.2.2.2.2.2.2.1⟩

/-- C3: in the arithmetic-with-immediate class, an add or subtract with
flags-bit clear and base register equal to the program counter is rewritten
to the address-formation pseudo-instruction with base register forced to 0
and `add` taken from bit 23; every other word of the class keeps the table
identity and the extracted base register, and the 12-bit immediate is kept
as extracted in all cases. -/
theorem armv7_disas_arith_imm_adr_rewrite (tbl : armv7_tables)
    (d0 : darm_t) (w : Nat)
    (hc : (w >>> 28) &&& 0b1111 ≠ 0b1111)
    (ht : tbl.armv7_instr_types ((w >>> 20) &&& 0xff) = .T_ARITH_IMM) :
    (armv7_disassemble tbl d0 w).1 = 0 ∧
    (armv7_disassemble tbl d0 w).2.imm = w &&& BITMSK_12 ∧
    (((tbl.armv7_instr_labels ((w >>> 20) &&& 0xff) = .I_ADD ∨
       tbl.armv7_instr_labels ((w >>> 20) &&& 0xff) = .I_SUB) ∧
      (w >>> 20) &&& 1 = 0 ∧ (w >>> 16) &&& 0b1111 = PC →
      (armv7_disassemble tbl d0 w).2.instr = .I_ADR ∧
      (armv7_disassemble tbl d0 w).2.Rn = 0 ∧
      (armv7_disassemble tbl d0 w).2.add = (w >>> 23) &&& 1) ∧
    (¬((tbl.armv7_instr_labels ((w >>> 20) &&& 0xff) = .I_ADD ∨
        tbl.armv7_instr_labels ((w >>> 20) &&& 0xff) = .I_SUB) ∧
       (w >>> 20) &&& 1 = 0 ∧ (w >>> 16) &&& 0b1111 = PC) →
      (armv7_disassemble tbl d0 w).2.instr =
        tbl.armv7_instr_labels ((w >>> 20) &&& 0xff) ∧
      (armv7_disassemble tbl d0 w).2.Rn = (w >>> 16) &&& 0b1111)) := by
  have hfst := armv7_disassemble_fst tbl d0 w
  have hsnd := armv7_disassemble_snd tbl d0 w
  rw [if_neg hc] at hfst hsnd
  rw [hfst, hsnd]
  simp [armv7_disas_cond, ht]
  split_ifs with hA <;> simp_all

/-- A sample table assignment sending every primary index to the
arithmetic-with-immediate class with the add identity. -/
def tbl_arith_imm : armv7_tables :=
  { tbl0 with
    armv7_instr_labels := fun _ => .I_ADD,
    armv7_instr_types := fun _ => .T_ARITH_IMM }

/-- C3 witness: the concrete word 0xE28F1004 (add-immediate, flags clear,
base register 15) decodes to the address-formation pseudo-instruction with
base register 0, `add` = 1, and the extracted 12-bit immediate 4. -/
theorem armv7_disas_arith_imm_adr_rewrite_witness :
    (armv7_disassemble tbl_arith_imm darm_zero 0xE28F1004).2.instr =
      .I_ADR ∧
    (armv7_disassemble tbl_arith_imm darm_zero 0xE28F1004).2.Rn = 0 ∧
    (armv7_disassemble tbl_arith_imm darm_zero 0xE28F1004).2.add = 1 ∧
    (armv7_disassemble tbl_arith_imm darm_zero 0xE28F1004).2.imm = 4 := by
  have h := armv7_disas_arith_imm_adr_rewrite tbl_arith_imm darm_zero
    0xE28F1004 (by decide) (by decide)
  have hA := h.2.2.1 ⟨Or.inl (by decide), by decide, by decide⟩
  refine ⟨hA.1, hA.2.1, ?_, ?_⟩
  · rw [hA.2.2]; decide
  · rw [h.2.1]; decide

/-- C5: in the destination-source-shift class with an immediate shift
(bit 4 clear), a logical-left-shift sub-table identity with zero shift type
and zero shift amount is rewritten to plain move, and further to the no-op
identity when the destination register equals the operand register; a
rotate-right sub-table identity with shift type 3 and zero amount is
rewritten to rotate-right-with-extend; and an invalid sub-table identity
makes the whole decode fail. -/
theorem armv7_disas_dst_src_alias (tbl : armv7_tables) (d0 : darm_t)
    (w : Nat)
    (hc : (w >>> 28) &&& 0b1111 ≠ 0b1111)
    (ht : tbl.armv7_instr_types ((w >>> 20) &&& 0xff) = .T_DST_SRC) :
    ((w >>> 4) &&& 1 = 0 →
      tbl.type_shift_instr_lookup ((w >>> 4) &&& 0b1111) = .I_LSL →
      (w >>> 5) &&& 0b11 = 0 → (w >>> 7) &&& 0b11111 = 0 →
      (armv7_disassemble tbl d0 w).1 = 0 ∧
      (armv7_disassemble tbl d0 w).2.instr =
        (if (w >>> 12) &&& 0b1111 = w &&& 0b1111 then
          armv7_instr_t.I_NOP else armv7_instr_t.I_MOV)) ∧
    ((w >>> 4) &&& 1 = 0 →
      tbl.type_shift_instr_lookup ((w >>> 4) &&& 0b1111) = .I_ROR →
      (w >>> 5) &&& 0b11 = 3 → (w >>> 7) &&& 0b11111 = 0 →
      (armv7_disassemble tbl d0 w).1 = 0 ∧
      (armv7_disassemble tbl d0 w).2.instr = .I_RRX) ∧
    (tbl.type_shift_instr_lookup ((w >>> 4) &&& 0b1111) = .I_INVLD →
      (armv7_disassemble tbl d0 w).1 = -1) := by
  have hfst := armv7_disassemble_fst tbl d0 w
  have hsnd := armv7_disassemble_snd tbl d0 w
  rw [if_neg hc] at hfst hsnd
  rw [hfst, hsnd]
  refine ⟨?_, ?_, ?_⟩
  · intro hb hl hty hsh
    simp [armv7_disas_cond, ht, hl, hb, hty, hsh]
  · intro hb hl hty hsh
    simp [armv7_disas_cond, ht, hl, hb, hty, hsh]
  · intro hl
    simp [armv7_disas_cond, ht, hl]

/-- A sample table assignment sending every primary index to the
destination-source-shift class, with sub-index 0 resolving to the
logical-left-shift identity and sub-index 6 to rotate-right. -/
def tbl_dst_src : armv7_tables :=
  { tbl0 with
    armv7_instr_types := fun _ => .T_DST_SRC,
    type_shift_instr_lookup := fun n =>
      if n = 0 then .I_LSL else if n = 6 then .I_ROR else .I_INVLD }

/-- C5 witness: the concrete word 0xE0001002 (immediate shift, sub-table
identity logical-left-shift, zero type, zero amount, destination register 1,
operand register 2) decodes successfully to the plain move identity. -/
theorem armv7_disas_dst_src_alias_witness :
    (armv7_disassemble tbl_dst_src darm_zero 0xE0001002).1 = 0 ∧
    (armv7_disassemble tbl_dst_src darm_zero 0xE0001002).2.instr =
      .I_MOV := by
  have h := (armv7_disas_dst_src_alias tbl_dst_src darm_zero 0xE0001002
    (by decide) (by decide)).1 (by decide) (by decide) (by decide) (by decide)
  refine ⟨h.1, ?_⟩
  rw [h.2]; decide

/-- Setting the top eight bits of a 32-bit value whose low 24 bits hold `x`
is plain addition: for `x < 2 ^ 24`, `x ||| 0xff000000 = 2 ^ 24 * 0xff + x`. -/
theorem lor_ff000000_eq (x : Nat) (hx : x < 2 ^ 24) :
    x ||| 0xff000000 = 2 ^ 24 * 0xff + x := by
  apply Nat.eq_of_testBit_eq
  intro j
  rw [Nat.testBit_or,
      show (0xff000000 : Nat) = 2 ^ 24 * 0xff + 0 by norm_num,
      Nat.testBit_mul_pow_two_add 0xff hx j,
      Nat.testBit_mul_pow_two_add 0xff (show (0 : Nat) < 2 ^ 24 by norm_num) j]
  by_cases hj : j < 24
  · simp [hj]
  · have hxf : x.testBit j = false :=
      Nat.testBit_lt_two_pow
        (lt_of_lt_of_le hx (Nat.pow_le_pow_right (by norm_num) (by omega)))
    simp [hj, hxf]

/-- C4: in the branch/branch-link/supervisor-call class, a non-supervisor
identity gets its 24-bit immediate sign-extended from bit 23 and scaled by
four: with bit 23 set the stored immediate is `4 * field + 0xfc000000`, a
value that is negative as a 32-bit two's-complement quantity (at least
`2 ^ 31`), a multiple of 4, and exactly four times the sign-extended field
when read back as a signed integer; with bit 23 clear it is exactly four
times the field.  The supervisor-call identity stores the 24-bit field
verbatim. -/
theorem armv7_disas_brnchsc_imm (tbl : armv7_tables) (d0 : darm_t)
    (w : Nat)
    (hc : (w >>> 28) &&& 0b1111 ≠ 0b1111)
    (ht : tbl.armv7_instr_types ((w >>> 20) &&& 0xff) = .T_BRNCHSC) :
    (armv7_disassemble tbl d0 w).1 = 0 ∧
    (tbl.armv7_instr_labels ((w >>> 20) &&& 0xff) = .I_SVC →
      (armv7_disassemble tbl d0 w).2.imm = w &&& BITMSK_24) ∧
    (tbl.armv7_instr_labels ((w >>> 20) &&& 0xff) ≠ .I_SVC →
      (((w &&& BITMSK_24) >>> 23) &&& 1 = 1 →
        (armv7_disassemble tbl d0 w).2.imm =
          4 * (w &&& BITMSK_24) + 0xfc000000 ∧
        2 ^ 31 ≤ (armv7_disassemble tbl d0 w).2.imm ∧
        (armv7_disassemble tbl d0 w).2.imm % 4 = 0 ∧
        ((armv7_disassemble tbl d0 w).2.imm : Int) - 2 ^ 32 =
          4 * (((w &&& BITMSK_24) : Int) - 2 ^ 24)) ∧
      (((w &&& BITMSK_24) >>> 23) &&& 1 ≠ 1 →
        (armv7_disassemble tbl d0 w).2.imm = 4 * (w &&& BITMSK_24))) := by
  have hx24 : w &&& BITMSK_24 < 2 ^ 24 := by
    have hle : w &&& BITMSK_24 ≤ BITMSK_24 := Nat.and_le_right
    have : BITMSK_24 = 2 ^ 24 - 1 := by decide
    omega
  have hfst := armv7_disassemble_fst tbl d0 w
  have hsnd := armv7_disassemble_snd tbl d0 w
  rw [if_neg hc] at hfst hsnd
  rw [hfst, hsnd]
  refine ⟨?_, ?_, ?_⟩
  · simp [armv7_disas_cond, ht]
  · intro hl
    simp [armv7_disas_cond, ht, hl]
  · intro hl
    constructor
    · intro hbit
      have hge : 2 ^ 23 ≤ w &&& BITMSK_24 := by
        rw [Nat.and_one_is_mod, Nat.shiftRight_eq_div_pow] at hbit
        omega
      have hbit' : (w &&& BITMSK_24) >>> 23 % 2 = 1 := by
        rw [Nat.and_one_is_mod] at hbit
        exact hbit
      have himm : (armv7_disas_cond tbl
          { darm_zero with cond := (w >>> 28) &&& 0b1111, w := w } w).2.imm =
          4 * (w &&& BITMSK_24) + 0xfc000000 := by
        simp [armv7_disas_cond, ht, hl, hbit']
        rw [lor_ff000000_eq _ hx24]
        omega
      refine ⟨himm, ?_, ?_, ?_⟩ <;> rw [himm] <;> omega
    · intro hbit
      have hbit' : ¬(w &&& BITMSK_24) >>> 23 % 2 = 1 := by
        rw [Nat.and_one_is_mod] at hbit
        exact hbit
      simp [armv7_disas_cond, ht, hl, hbit']
      omega

/-- A sample table assignment sending every primary index to the
branch/branch-link/supervisor-call class with the branch identity. -/
def tbl_brnchsc : armv7_tables :=
  { tbl0 with
    armv7_instr_labels := fun _ => .I_B,
    armv7_instr_types := fun _ => .T_BRNCHSC }

/-- C4 witness: the concrete branch word 0xEA800000 carries the 24-bit
field 0x800000 with bit 23 set; the stored immediate is 0xfe000000, which
is at least `2 ^ 31` (negative as a 32-bit signed value) and a multiple
of 4. -/
theorem armv7_disas_brnchsc_imm_witness :
    (armv7_disassemble tbl_brnchsc darm_zero 0xEA800000).2.imm =
      0xfe000000 ∧
    2 ^ 31 ≤ (armv7_disassemble tbl_brnchsc darm_zero 0xEA800000).2.imm ∧
    (armv7_disassemble tbl_brnchsc darm_zero 0xEA800000).2.imm % 4 = 0 := by
  have h := ((armv7_disas_brnchsc_imm tbl_brnchsc darm_zero 0xEA800000
    (by decide) (by decide)).2.2 (by decide)).1 (by decide)
  refine ⟨?_, h.2.1, h.2.2.1⟩
  rw [h.1]; decide
